import Mathlib

/-!
Verification development for the `iata_code_fetcher` repository.

The Python sources are shallowly embedded:
* `Fetcher` models `src/iata_code_fetcher/fetcher.py`
  (`generate_codes`, `fetch_and_process_data`, `process_and_save_data`).
* `Process` models `src/iata_code_fetcher/process.py`,
  `ProcessAirport` models `src/iata_code_fetcher/process_airport.py`,
  and `ProcessCarrier` models `src/iata_code_fetcher/process_carrier.py`,
  with the polars dataframe operations (`read_ndjson`, `unique`, `rename`,
  `sort`) made explicit.
* `OsPath` models the `os.path.splitext`-based output-path computation.

Effects are made explicit: the network is a function from attempt number to a
transport outcome, exceptions become constructors of a result type, and file
appends become the list of records the driver writes.
-/

namespace Fetcher

/-- A raw record: one parsed table row, an ordered mapping from source column
name to cell value, built by Python's `dict(zip(headers, cols))`. -/
abbrev RawRecord := List (String × String)

/-- Insertion into a Python `dict` held as an ordered association list: an
existing key keeps its position and gets the new value, a new key is appended. -/
def dictInsert (d : RawRecord) (k v : String) : RawRecord :=
  if d.any (fun p => p.1 = k) then
    d.map (fun p => if p.1 = k then (k, v) else p)
  else
    d ++ [(k, v)]

/-- Python's `dict(pairs)`: fold the pairs into an ordered mapping. -/
def dictOfPairs (ps : List (String × String)) : RawRecord :=
  ps.foldl (fun d p => dictInsert d p.1 p.2) []

/-- The `<table class="datatable">` element of a response, structurally: the
text of the `<td>` cells under `<thead>`, and under `<tbody>` (in document
order) the rows, each a list of `<td>` texts — or no `<tbody>` element at all.
`BeautifulSoup.find_all("td")` on the table traverses every `<td>` descendant
in document order: the `<thead>` cells followed by all `<tbody>` cells. -/
structure Table where
  headTds : List String
  tbody : Option (List (List String))
deriving DecidableEq, Repr

/-- A fetched HTML response body: the `datatable` table if one is present. -/
structure HtmlResponse where
  table : Option Table
deriving DecidableEq, Repr

/-- Outcome of one `requests.get` call: a `RequestException` (timeout,
connection error, or the non-2xx raised by `raise_for_status`), or a body. -/
inductive TransportAttempt where
  | fail (msg : String)
  | success (resp : HtmlResponse)
deriving DecidableEq, Repr

/-- Result of one `fetch_and_process_data` invocation, with each exception that
can escape it as a constructor:
* `ok` — the returned list of records;
* `noData` — the `ValueError("No record found")` raised when no `datatable`
  table is present (not caught by the retry handler, which catches only
  `RequestException`);
* `transportFail` — the `RequestException` re-raised after the retries are
  exhausted;
* `crash` — the `AttributeError` raised by `table.find("tbody").find_all`
  when the table has no `<tbody>` (caught nowhere in the program). -/
inductive FetchResult where
  | ok (records : List RawRecord)
  | noData
  | transportFail (msg : String)
  | crash
deriving DecidableEq, Repr

/-- `dict(zip(headers, cols))` for one body row. -/
def rowData (headers cols : List String) : RawRecord :=
  dictOfPairs (headers.zip cols)

/-- The parsing part of `fetch_and_process_data`, applied to a response body:
find the `datatable` table (else `ValueError`), collect `headers` from every
`<td>` of the table, and zip each `<tbody>` row's cells with those headers.
A missing `<tbody>` raises `AttributeError` (modelled as `crash`). -/
def parseResponse (resp : HtmlResponse) : FetchResult :=
  match resp.table with
  | none => .noData
  | some t =>
    match t.tbody with
    | none => .crash
    | some rows =>
      let headers := t.headTds ++ rows.flatten
      .ok (rows.map (fun cols => rowData headers cols))

/-- `MAX_RETRIES` from `fetcher.py`. -/
def MAX_RETRIES : Nat := 3

/-- The retry loop of `fetch_and_process_data`, with `remaining` attempts left
and `attempt` the current 0-based attempt index. A successful GET is parsed at
once (parse failures are not retried); a `RequestException` is retried while
more attempts remain and re-raised, wrapped, on the last one. The `0` case is
the unreachable `return []` after the `for` loop. -/
def fetchAttempts (transport : Nat → TransportAttempt) :
    Nat → Nat → FetchResult
  | _, 0 => .ok []
  | attempt, remaining + 1 =>
    match transport attempt with
    | .success resp => parseResponse resp
    | .fail msg =>
      if remaining = 0 then
        .transportFail
          ("Request failed after " ++ toString MAX_RETRIES ++ " attempts: "
            ++ msg)
      else
        fetchAttempts transport (attempt + 1) remaining

/-- `fetch_and_process_data`, with the network abstracted as a map from
attempt number to transport outcome (the URL construction does not affect
control flow and is elided). -/
def fetch_and_process_data (transport : Nat → TransportAttempt) : FetchResult :=
  fetchAttempts transport 0 MAX_RETRIES

/-- The per-code loop of `process_and_save_data`: for each code, fetch; on
success append every returned record to the log file; on `ValueError`
(`noData`) or `RequestException` (`transportFail`) log and continue; any other
exception (`crash`) propagates and aborts the loop. Returns the records
appended (in order) and whether the loop ran to completion. -/
def process_and_save_data (fetch : String → FetchResult) :
    List String → List RawRecord × Bool
  | [] => ([], true)
  | code :: rest =>
    match fetch code with
    | .ok rs =>
      let t := process_and_save_data fetch rest
      (rs ++ t.1, t.2)
    | .noData => process_and_save_data fetch rest
    | .transportFail _ => process_and_save_data fetch rest
    | .crash => ([], false)

/-- The alphabet `ascii_uppercase + digits` used by `generate_codes`. -/
def iataAlphabet : List Char :=
  "ABCDEFGHIJKLMNOPQRSTUVWXYZ0123456789".toList

/-- `itertools.product(A, repeat=n)`: every `n`-tuple over `A`, the leftmost
position most significant, so the rightmost position varies fastest. -/
def productRepeat (A : List Char) : Nat → List (List Char)
  | 0 => [[]]
  | n + 1 => A.flatMap (fun c => (productRepeat A n).map (fun s => c :: s))

/-- `generate_codes(length)`: `"".join` applied to each tuple of
`product(ascii_uppercase + digits, repeat=length)`. The Python generator is
modelled by the materialised list it yields. -/
def generate_codes (length : Nat) : List String :=
  (productRepeat iataAlphabet length).map (fun l => String.mk l)

/-- The ordering a finite alphabet induces on its characters: position in the
alphabet list. -/
def idxLt (A : List Char) (a b : Char) : Prop :=
  A.indexOf a < A.indexOf b

end Fetcher

namespace Polars

/-- One JSON object from a CrawlLog line: an ordered mapping from key to
string value. -/
abbrev Rec := List (String × String)

/-- A dataframe cell: a string value, or a null for a key the record lacks. -/
abbrev Cell := Option String

/-- A polars dataframe: a column schema and rows aligned with it. -/
structure DataFrame where
  cols : List String
  rows : List (List Cell)
deriving DecidableEq, Repr

/-- The value of key `k` in record `r`, null when absent. -/
def lookupKey (r : Rec) (k : String) : Cell :=
  (r.find? (fun kv => kv.1 == k)).map (fun kv => kv.2)

/-- The union of the records' keys, in order of first appearance — the schema
`pl.read_ndjson` infers for the file. -/
def collectCols (recs : List Rec) : List String :=
  recs.foldl
    (fun acc r =>
      r.foldl (fun a kv => if a.contains kv.1 then a else a ++ [kv.1]) acc)
    []

/-- The dataframe row of one record: its value in each column, null where the
record lacks the key. -/
def projRow (cols : List String) (r : Rec) : List Cell :=
  cols.map (lookupKey r)

/-- `pl.read_ndjson`: one row per record over the inferred schema. -/
def read_ndjson (recs : List Rec) : DataFrame :=
  ⟨collectCols recs, recs.map (projRow (collectCols recs))⟩

/-- `df.unique()`: deduplicate rows by full structural equality. polars leaves
the order of the survivors unspecified (`maintain_order` defaults to false);
the model uses `List.dedup`. -/
def unique (df : DataFrame) : DataFrame :=
  ⟨df.cols, df.rows.dedup⟩

/-- The name column `c` gets under `mapping`: its target when `c` is a mapped
source, otherwise `c` itself. -/
def renameCol (mapping : List (String × String)) (c : String) : String :=
  match mapping.find? (fun kv => kv.1 == c) with
  | some kv => kv.2
  | none => c

/-- `df.rename(mapping)`: renaming is strict in polars — a mapped source
column absent from the schema raises `SchemaFieldNotFoundError`. Row values
are untouched. -/
def rename (mapping : List (String × String)) (df : DataFrame) :
    Except String DataFrame :=
  if mapping.all (fun kv => df.cols.contains kv.1) then
    .ok ⟨df.cols.map (renameCol mapping), df.rows⟩
  else
    .error "SchemaFieldNotFoundError"

/-- A cell as a sort key: a string compares as its character list
(lexicographically, which is how strings compare), and nulls sort first
(polars places nulls at the start by default), so null maps to the bottom
element. -/
def cellKey : Cell → WithBot (List Char)
  | none => ⊥
  | some s => (s.data : WithBot (List Char))

/-- The sort key of a row for `df.sort(ks)`: the tuple of the row's cells in
the named columns (compared lexicographically). -/
def rowKey (cols ks : List String) (row : List Cell) : List (WithBot (List Char)) :=
  ks.map (fun k =>
    match cols.indexOf? k with
    | some i => cellKey (row.getD i none)
    | none => ⊥)

/-- Comparison of rows by a sort key. -/
def keyLe (key : List Cell → List (WithBot (List Char))) (a b : List Cell) : Prop :=
  key a ≤ key b

instance (key : List Cell → List (WithBot (List Char))) :
    DecidableRel (keyLe key) :=
  fun a b => inferInstanceAs (Decidable (key a ≤ key b))

instance (key : List Cell → List (WithBot (List Char))) :
    IsTotal (List Cell) (keyLe key) :=
  ⟨fun a b => le_total (key a) (key b)⟩

instance (key : List Cell → List (WithBot (List Char))) :
    IsTrans (List Cell) (keyLe key) :=
  ⟨fun _ _ _ h₁ h₂ => le_trans h₁ h₂⟩

/-- `df.sort(ks)`: rows ascending by the key tuple of the named columns.
polars does not promise a stable sort; the model uses the stable
`insertionSort`. -/
def sortBy (ks : List String) (df : DataFrame) : DataFrame :=
  ⟨df.cols, df.rows.insertionSort (keyLe (rowKey df.cols ks))⟩

/-- The rows of `df` are ascending by the key tuple of columns `ks`. -/
def sortedBy (df : DataFrame) (ks : List String) : Prop :=
  df.rows.Sorted (keyLe (rowKey df.cols ks))

instance (df : DataFrame) (ks : List String) : Decidable (sortedBy df ks) :=
  inferInstanceAs (Decidable (df.rows.Sorted (keyLe (rowKey df.cols ks))))

/-- The shared shape of the four processing functions: read the records,
`unique`, rename with the given mapping, sort by the given columns. Each
source function instantiates this with its own mapping and sort columns. -/
def pipeline (mapping : List (String × String)) (ks : List String)
    (recs : List Rec) : Except String DataFrame :=
  match rename mapping (unique (read_ndjson recs)) with
  | .error e => .error e
  | .ok dfr => .ok (sortBy ks dfr)

end Polars

namespace Process

/-- The airport rename mapping of `process.py`. -/
def airportMapping : List (String × String) :=
  [("3-letter location code", "iata"), ("City Name", "city_name"),
    ("Airport Name", "airport_name")]

/-- The carrier rename mapping of `process.py`. -/
def carrierMapping : List (String × String) :=
  [("2-letter code", "iata"), ("Country / Territory", "country_or_territory"),
    ("Company name", "company_name")]

/-- The airport sort columns of `process.py`. -/
def airportSortKeys : List String := ["iata", "city_name", "airport_name"]

/-- The carrier sort columns of `process.py`. -/
def carrierSortKeys : List String := ["iata", "country_or_territory", "company_name"]

/-- `process_airport_data` from `process.py`: read, `unique`, rename, sort by
`["iata", "city_name", "airport_name"]`. -/
def process_airport_data (recs : List Polars.Rec) :
    Except String Polars.DataFrame :=
  Polars.pipeline airportMapping airportSortKeys recs

/-- `process_carrier_data` from `process.py`: read, `unique`, rename, sort by
`["iata", "country_or_territory", "company_name"]`. -/
def process_carrier_data (recs : List Polars.Rec) :
    Except String Polars.DataFrame :=
  Polars.pipeline carrierMapping carrierSortKeys recs

end Process

namespace ProcessAirport

/-- `process_airport_data` from `process_airport.py`: same rename as
`process.py`, but the sort is by `["iata", "city_name"]` only — the
`airport_name` column is not part of this variant's sort. -/
def process_airport_data (recs : List Polars.Rec) :
    Except String Polars.DataFrame :=
  Polars.pipeline Process.airportMapping ["iata", "city_name"] recs

end ProcessAirport

namespace ProcessCarrier

/-- `process_airport_data` from `process_carrier.py` (the function keeps its
copy-pasted name in the source): carrier rename, sort by
`["iata", "country_or_territory"]` only — the `company_name` column is not
part of this variant's sort. -/
def process_airport_data (recs : List Polars.Rec) :
    Except String Polars.DataFrame :=
  Polars.pipeline Process.carrierMapping ["iata", "country_or_territory"] recs

end ProcessCarrier

namespace OsPath

/-- Split `l` at the last occurrence of `c`: `some (a, b)` with
`l = a ++ c :: b` and `c ∉ b`, or `none` when `c ∉ l` — the `str.rfind`
used by `os.path.splitext`. -/
def splitLast (c : Char) : List Char → Option (List Char × List Char)
  | [] => none
  | x :: xs =>
    match splitLast c xs with
    | some (a, b) => some (x :: a, b)
    | none => if x = c then some ([], xs) else none

/-- The extension split of `os.path.splitext` once the path `p` is decomposed
as `dir ++ base` with `base` the part after the last `/` (empty `dir` when
there is none): split `base` at its last dot, provided some character of
`base` before that dot is not itself a dot (so a leading-dots-only name such
as `.bashrc` keeps no extension). -/
def splitextBase (p dir base : List Char) : List Char × List Char :=
  match splitLast '.' base with
  | some (a, b) =>
    if a.any (fun x => x ≠ '.') then (dir ++ a, '.' :: b) else (p, [])
  | none => (p, [])

/-- `os.path.splitext(p)` over characters: locate the last `/` (the basename
starts after it) and split the basename at its last usable dot. -/
def splitext (p : List Char) : List Char × List Char :=
  match splitLast '/' p with
  | some (d, base) => splitextBase p (d ++ ['/']) base
  | none => splitextBase p [] p

/-- The suffix `main` appends to the input's stem. -/
def processedSuffix : List Char := "_processed.jsonl".toList

/-- `os.path.splitext(file_path)[0] + "_processed.jsonl"`, the output path
computed by `main` in `process.py` and `process_airport.py`. -/
def outputPath (p : List Char) : List Char :=
  (splitext p).1 ++ processedSuffix

/-- The paths a `main` run writes: the single `result.write_ndjson(output_path)`
call is its only write. -/
def mainWrites (p : List Char) : List (List Char) :=
  [outputPath p]

end OsPath

/-- The carrier HTML fixture of `test_fetcher.py`: the `datatable` table with
three header cells and two body rows. -/
def carrierFixture : Fetcher.HtmlResponse :=
  ⟨some ⟨["Company name", "Country / Territory", "2-letter code"],
    some [["BONZA AVIATION PTY LTD", "Australia", "AB"],
      ["West Atlantic Sweden AB", "Sweden", "T2"]]⟩⟩

/-- A response whose `datatable` table is present but has no `<tbody>`. -/
def noTbodyResponse : Fetcher.HtmlResponse :=
  ⟨some ⟨["Company name", "Country / Territory", "2-letter code"], none⟩⟩

/-- A response whose body has no `table.datatable` at all. -/
def noTableResponse : Fetcher.HtmlResponse := ⟨none⟩

/-- CrawlLog record fixtures for the normalization claims. -/
def airportRecAnaa : Polars.Rec :=
  [("City Name", "Anaa"), ("Airport Name", "Anaa Airport"),
    ("3-letter location code", "AAA")]

/-- An airport record with iata `BB`. -/
def airportRecBB : Polars.Rec :=
  [("City Name", "X"), ("Airport Name", "B"),
    ("3-letter location code", "BB")]

/-- An airport record with iata `AA`. -/
def airportRecAA : Polars.Rec :=
  [("City Name", "Y"), ("Airport Name", "A"),
    ("3-letter location code", "AA")]

/-- A carrier record. -/
def carrierRecBonza : Polars.Rec :=
  [("Company name", "BONZA AVIATION PTY LTD"),
    ("Country / Territory", "Australia"), ("2-letter code", "AB")]

/-- A short airport record: the trailing `Airport Name` key is missing, as a
parsed table row with fewer cells than headers produces. -/
def shortAirportRec : Polars.Rec :=
  [("City Name", "B"), ("3-letter location code", "AAB")]

/-- A short carrier record: the mapped `Company name` key is missing. -/
def shortCarrierRec : Polars.Rec :=
  [("Country / Territory", "Sweden"), ("2-letter code", "T2")]

/-- Two records agreeing on the sorted columns of `process_airport.py`
(`iata`, `city_name`) and differing, descending, in `airport_name`. -/
def tieRecs : List Polars.Rec :=
  [[("3-letter location code", "AA"), ("City Name", "X"), ("Airport Name", "B")],
    [("3-letter location code", "AA"), ("City Name", "X"), ("Airport Name", "A")]]

/-- The dataframe `process_airport.py` produces from `tieRecs`: the tie on
`(iata, city_name)` is left in input order, so `airport_name` descends. -/
def tieDf : Polars.DataFrame :=
  ⟨["iata", "city_name", "airport_name"],
    [[some "AA", some "X", some "B"], [some "AA", some "X", some "A"]]⟩

namespace Fetcher

theorem length_flatMap_map_cons (A : List Char) (P : List (List Char)) :
    (A.flatMap (fun c => P.map (fun s => c :: s))).length
      = A.length * P.length := by
  induction A with
  | nil => simp
  | cons a A ih =>
    simp only [List.flatMap_cons, List.length_append, List.length_map, ih,
      List.length_cons]
    ring

theorem length_productRepeat (A : List Char) :
    ∀ n, (productRepeat A n).length = A.length ^ n
  | 0 => by simp [productRepeat]
  | n + 1 => by
    show (A.flatMap (fun c => (productRepeat A n).map (fun s => c :: s))).length
        = A.length ^ (n + 1)
    rw [length_flatMap_map_cons, length_productRepeat A n, pow_succ,
      Nat.mul_comm]

theorem length_of_mem_productRepeat {A : List Char} :
    ∀ {n : Nat} {s : List Char}, s ∈ productRepeat A n → s.length = n := by
  intro n
  induction n with
  | zero =>
    intro s hs
    simp only [productRepeat, List.mem_singleton] at hs
    simp [hs]
  | succ n ih =>
    intro s hs
    simp only [productRepeat, List.mem_flatMap, List.mem_map] at hs
    obtain ⟨c, _, t, ht, rfl⟩ := hs
    simp [ih ht]

theorem pairwise_idxLt_of_nodup {A : List Char} (h : A.Nodup) :
    A.Pairwise (idxLt A) := by
  rw [List.pairwise_iff_getElem]
  intro i j hi hj hij
  show A.indexOf A[i] < A.indexOf A[j]
  rw [List.indexOf_getElem h i hi, List.indexOf_getElem h j hj]
  exact hij

theorem lex_irrefl {r : Char → Char → Prop} (hr : ∀ a, ¬r a a) :
    ∀ l : List Char, ¬List.Lex r l l := by
  intro l
  induction l with
  | nil => intro h; cases h
  | cons a l ih =>
    intro h
    cases h with
    | cons h => exact ih h
    | rel h => exact hr a h

theorem pairwise_lex_productRepeat {A : List Char} (hA : A.Nodup) :
    ∀ n, (productRepeat A n).Pairwise (List.Lex (idxLt A))
  | 0 => by simp [productRepeat]
  | n + 1 => by
    have ih := pairwise_lex_productRepeat hA n
    show (A.flatMap
        (fun c => (productRepeat A n).map (fun s => c :: s))).Pairwise _
    rw [List.pairwise_flatMap]
    constructor
    · intro c _
      exact List.Pairwise.map _ (fun _ _ h => List.Lex.cons h) ih
    · refine (pairwise_idxLt_of_nodup hA).imp ?_
      intro c d hcd x hx y hy
      simp only [List.mem_map] at hx hy
      obtain ⟨s, _, rfl⟩ := hx
      obtain ⟨t, _, rfl⟩ := hy
      exact List.Lex.rel hcd

theorem nodup_productRepeat {A : List Char} (hA : A.Nodup) (n : Nat) :
    (productRepeat A n).Nodup := by
  refine (pairwise_lex_productRepeat hA n).imp ?_
  intro s t hst heq
  subst heq
  exact @lex_irrefl (idxLt A) (fun a => lt_irrefl (A.indexOf a)) s hst

theorem head?_productRepeat (a : Char) (A' : List Char) :
    ∀ n, (productRepeat (a :: A') n).head? = some (List.replicate n a)
  | 0 => rfl
  | n + 1 => by
    have ih := head?_productRepeat a A' n
    show ((a :: A').flatMap
        (fun c => (productRepeat (a :: A') n).map (fun s => c :: s))).head?
      = some (List.replicate (n + 1) a)
    rw [List.flatMap_cons, List.head?_append, List.head?_map, ih,
      List.replicate_succ]
    rfl

theorem getLast?_flatMap_map_cons (P : List (List Char)) (p : List Char)
    (hp : P.getLast? = some p) (A : List Char) :
    (A.flatMap (fun c => P.map (fun s => c :: s))).getLast?
      = A.getLast?.map (fun c => c :: p) := by
  induction A with
  | nil => simp
  | cons a A ih =>
    rw [List.flatMap_cons, List.getLast?_append, ih]
    cases A with
    | nil => simp [hp]
    | cons b B =>
      have hBs : (b :: B).getLast?.isSome := by
        rw [List.getLast?_isSome]
        simp
      obtain ⟨w, hw⟩ := Option.isSome_iff_exists.mp hBs
      simp [hw]

theorem getLast?_productRepeat {A : List Char} {z : Char}
    (hz : A.getLast? = some z) :
    ∀ n, (productRepeat A n).getLast? = some (List.replicate n z)
  | 0 => rfl
  | n + 1 => by
    have ih := getLast?_productRepeat hz n
    show (A.flatMap
        (fun c => (productRepeat A n).map (fun s => c :: s))).getLast?
      = some (List.replicate (n + 1) z)
    rw [getLast?_flatMap_map_cons _ _ ih A, hz, List.replicate_succ]
    rfl

end Fetcher

/-- C1: for every (duplicate-free, nonempty) alphabet `A` of size `k` and
every length `n`, the enumeration underlying `generate_codes` yields exactly
`k ^ n` distinct strings, each of length `n`, in lexicographic order over the
alphabet's own ordering; the first is the alphabet's minimum (its first
character) repeated `n` times and the last its maximum (its last character)
repeated `n` times. In particular `generate_codes 2` over the 36-character
alphanumeric alphabet yields 1296 distinct codes of length 2, the first
`"AA"`, the last `"99"`. -/
theorem C1_enumeration (A : List Char) (n : Nat) (a z : Char)
    (hA : A.Nodup) (hhead : A.head? = some a) (hlast : A.getLast? = some z) :
    ((Fetcher.productRepeat A n).length = A.length ^ n ∧
      (∀ s ∈ Fetcher.productRepeat A n, s.length = n) ∧
      (Fetcher.productRepeat A n).Nodup ∧
      (Fetcher.productRepeat A n).Pairwise (List.Lex (Fetcher.idxLt A)) ∧
      (Fetcher.productRepeat A n).head? = some (List.replicate n a) ∧
      (Fetcher.productRepeat A n).getLast? = some (List.replicate n z)) ∧
    ((Fetcher.generate_codes 2).length = 1296 ∧
      (Fetcher.generate_codes 2).head? = some "AA" ∧
      (Fetcher.generate_codes 2).getLast? = some "99" ∧
      (Fetcher.generate_codes 2).Nodup ∧
      ∀ s ∈ Fetcher.generate_codes 2, s.length = 2) := by
  have hmkinj : Function.Injective String.mk := by
    intro x y h
    exact congrArg String.data h
  constructor
  · obtain ⟨A', rfl⟩ : ∃ A', A = a :: A' := by
      cases A with
      | nil => cases hhead
      | cons x A' =>
        simp only [List.head?_cons, Option.some.injEq] at hhead
        exact ⟨A', by rw [hhead]⟩
    refine ⟨Fetcher.length_productRepeat _ n,
      fun s hs => Fetcher.length_of_mem_productRepeat hs,
      Fetcher.nodup_productRepeat hA n,
      Fetcher.pairwise_lex_productRepeat hA n,
      Fetcher.head?_productRepeat a A' n,
      Fetcher.getLast?_productRepeat hlast n⟩
  · have halpha : Fetcher.iataAlphabet
        = 'A' :: "BCDEFGHIJKLMNOPQRSTUVWXYZ0123456789".toList := rfl
    have hnodup : Fetcher.iataAlphabet.Nodup := by decide
    refine ⟨?_, ?_, ?_, ?_, ?_⟩
    · show ((Fetcher.productRepeat Fetcher.iataAlphabet 2).map _).length = 1296
      rw [List.length_map, Fetcher.length_productRepeat]
      rfl
    · show ((Fetcher.productRepeat Fetcher.iataAlphabet 2).map _).head? = _
      rw [List.head?_map, halpha, Fetcher.head?_productRepeat]
      rfl
    · show ((Fetcher.productRepeat Fetcher.iataAlphabet 2).map _).getLast? = _
      rw [List.getLast?_map,
        Fetcher.getLast?_productRepeat (z := '9') (by decide) 2]
      rfl
    · exact (Fetcher.nodup_productRepeat hnodup 2).map hmkinj
    · intro s hs
      simp only [Fetcher.generate_codes, List.mem_map] at hs
      obtain ⟨l, hl, rfl⟩ := hs
      show l.length = 2
      exact Fetcher.length_of_mem_productRepeat hl

/-- Witness for C1 at the concrete alphabet `['A', 'B']` and length 1. -/
theorem C1_enumeration_witness :
    ((Fetcher.productRepeat ['A', 'B'] 1).length = 2 ^ 1 ∧
      (∀ s ∈ Fetcher.productRepeat ['A', 'B'] 1, s.length = 1) ∧
      (Fetcher.productRepeat ['A', 'B'] 1).Nodup ∧
      (Fetcher.productRepeat ['A', 'B'] 1).Pairwise
        (List.Lex (Fetcher.idxLt ['A', 'B'])) ∧
      (Fetcher.productRepeat ['A', 'B'] 1).head? = some (List.replicate 1 'A') ∧
      (Fetcher.productRepeat ['A', 'B'] 1).getLast? = some (List.replicate 1 'B')) ∧
    ((Fetcher.generate_codes 2).length = 1296 ∧
      (Fetcher.generate_codes 2).head? = some "AA" ∧
      (Fetcher.generate_codes 2).getLast? = some "99" ∧
      (Fetcher.generate_codes 2).Nodup ∧
      ∀ s ∈ Fetcher.generate_codes 2, s.length = 2) :=
  C1_enumeration ['A', 'B'] 1 'A' 'B' (by decide) rfl rfl

namespace Fetcher

theorem fetchAttempts_three_unfold (t : Nat → TransportAttempt) :
    fetchAttempts t 0 3 =
      match t 0 with
      | .success resp => parseResponse resp
      | .fail _ => fetchAttempts t 1 2 := rfl

theorem fetchAttempts_two_unfold (t : Nat → TransportAttempt) :
    fetchAttempts t 1 2 =
      match t 1 with
      | .success resp => parseResponse resp
      | .fail _ => fetchAttempts t 2 1 := rfl

theorem fetchAttempts_one_unfold (t : Nat → TransportAttempt) :
    fetchAttempts t 2 1 =
      match t 2 with
      | .success resp => parseResponse resp
      | .fail m => .transportFail ("Request failed after 3 attempts: " ++ m) :=
  rfl

theorem psd_cons (fetch : String → FetchResult) (code : String)
    (rest : List String) :
    process_and_save_data fetch (code :: rest) =
      match fetch code with
      | .ok rs => (rs ++ (process_and_save_data fetch rest).1,
          (process_and_save_data fetch rest).2)
      | .noData => process_and_save_data fetch rest
      | .transportFail _ => process_and_save_data fetch rest
      | .crash => ([], false) := rfl

theorem psd_completes (fetch : String → FetchResult) (codes : List String)
    (hnc : ∀ c ∈ codes, fetch c ≠ .crash) :
    (process_and_save_data fetch codes).2 = true := by
  induction codes with
  | nil => rfl
  | cons c cs ih =>
    have ih' := ih (fun d hd => hnc d (List.mem_cons_of_mem c hd))
    have hc := hnc c (List.mem_cons_self c cs)
    rw [psd_cons]
    cases hfc : fetch c with
    | ok rs => exact ih'
    | noData => exact ih'
    | transportFail m => exact ih'
    | crash => exact absurd hfc hc

end Fetcher

/-- C2: when the transport fails on all three attempts,
`fetch_and_process_data` raises the wrapped `RequestException` (naming the
attempt count and the last failure) and returns no records; when it fails
twice and then succeeds, the successful result is returned without raising. -/
theorem C2_retry_policy (t : Nat → Fetcher.TransportAttempt)
    (m0 m1 m2 : String) (resp : Fetcher.HtmlResponse)
    (rs : List Fetcher.RawRecord) :
    (t 0 = .fail m0 → t 1 = .fail m1 → t 2 = .fail m2 →
      Fetcher.fetch_and_process_data t =
        .transportFail ("Request failed after 3 attempts: " ++ m2)) ∧
    (t 0 = .fail m0 → t 1 = .fail m1 → t 2 = .success resp →
      Fetcher.parseResponse resp = .ok rs →
      Fetcher.fetch_and_process_data t = .ok rs) := by
  have e : Fetcher.fetch_and_process_data t = Fetcher.fetchAttempts t 0 3 := rfl
  constructor
  · intro h0 h1 h2
    calc Fetcher.fetch_and_process_data t
        = Fetcher.fetchAttempts t 1 2 := by
          rw [e, Fetcher.fetchAttempts_three_unfold, h0]
      _ = Fetcher.fetchAttempts t 2 1 := by
          rw [Fetcher.fetchAttempts_two_unfold, h1]
      _ = .transportFail ("Request failed after 3 attempts: " ++ m2) := by
          rw [Fetcher.fetchAttempts_one_unfold, h2]
  · intro h0 h1 h2 hp
    calc Fetcher.fetch_and_process_data t
        = Fetcher.fetchAttempts t 1 2 := by
          rw [e, Fetcher.fetchAttempts_three_unfold, h0]
      _ = Fetcher.fetchAttempts t 2 1 := by
          rw [Fetcher.fetchAttempts_two_unfold, h1]
      _ = Fetcher.parseResponse resp := by
          rw [Fetcher.fetchAttempts_one_unfold, h2]
      _ = .ok rs := hp

/-- Witness for C2: a transport failing on every attempt, and one failing
twice before succeeding with the carrier fixture. -/
theorem C2_retry_policy_witness :
    (Fetcher.fetch_and_process_data (fun _ => .fail "boom") =
      .transportFail ("Request failed after 3 attempts: " ++ "boom")) ∧
    (Fetcher.fetch_and_process_data
        (fun i => if i < 2 then .fail "boom" else .success carrierFixture) =
      .ok [[("Company name", "BONZA AVIATION PTY LTD"),
        ("Country / Territory", "Australia"), ("2-letter code", "AB")],
        [("Company name", "West Atlantic Sweden AB"),
          ("Country / Territory", "Sweden"), ("2-letter code", "T2")]]) :=
  ⟨(C2_retry_policy (fun _ => .fail "boom") "boom" "boom" "boom" ⟨none⟩ []).1
      rfl rfl rfl,
    (C2_retry_policy
        (fun i => if i < 2 then .fail "boom" else .success carrierFixture)
        "boom" "boom" "boom" carrierFixture
        [[("Company name", "BONZA AVIATION PTY LTD"),
          ("Country / Territory", "Australia"), ("2-letter code", "AB")],
          [("Company name", "West Atlantic Sweden AB"),
            ("Country / Territory", "Sweden"), ("2-letter code", "T2")]]).2
      rfl rfl rfl rfl⟩

/-- C5 (code bug): on a response whose `datatable` table lacks a `<tbody>`,
`fetch_and_process_data` raises an `AttributeError` (from
`table.find("tbody").find_all("tr")`); `process_and_save_data` catches only
`RequestException` and `ValueError`, so — contrary to the spec's
treat-like-`NoDataError` contract — the error escapes and the crawl aborts:
nothing is appended and the remaining codes are never processed. -/
theorem C5_missing_tbody_aborts :
    Fetcher.fetch_and_process_data (fun _ => .success noTbodyResponse) =
        .crash ∧
    Fetcher.process_and_save_data
        (fun _ => Fetcher.fetch_and_process_data
          (fun _ => .success noTbodyResponse))
        ["AA", "AB"] = ([], false) :=
  ⟨rfl, rfl⟩

/-- C6: a response with no `table.datatable` makes `fetch_and_process_data`
raise `ValueError` (`noData`) from the first attempt — the transport is never
consulted past attempt 0, so there is no retry and no retry delay — and the
driver appends nothing to the CrawlLog for that code and continues with the
rest exactly as if the code were absent. -/
theorem C6_nodata_skip (t : Nat → Fetcher.TransportAttempt)
    (resp : Fetcher.HtmlResponse) (fetch : String → Fetcher.FetchResult)
    (code : String) (rest : List String)
    (h0 : t 0 = .success resp) (hnt : resp.table = none)
    (hf : fetch code = Fetcher.fetch_and_process_data t) :
    Fetcher.fetch_and_process_data t = .noData ∧
    Fetcher.process_and_save_data fetch (code :: rest) =
      Fetcher.process_and_save_data fetch rest := by
  have e : Fetcher.fetch_and_process_data t = Fetcher.fetchAttempts t 0 3 := rfl
  have hnd : Fetcher.fetch_and_process_data t = .noData := by
    rw [e, Fetcher.fetchAttempts_three_unfold, h0]
    show Fetcher.parseResponse resp = .noData
    rw [Fetcher.parseResponse, hnt]
  refine ⟨hnd, ?_⟩
  rw [Fetcher.psd_cons, hf, hnd]

/-- Witness for C6 at a concrete no-table response and a two-code crawl. -/
theorem C6_nodata_skip_witness :
    Fetcher.fetch_and_process_data (fun _ => .success noTableResponse) =
        .noData ∧
    Fetcher.process_and_save_data
        (fun _ => Fetcher.fetch_and_process_data
          (fun _ => .success noTableResponse))
        ["AA", "AB"] =
      Fetcher.process_and_save_data
        (fun _ => Fetcher.fetch_and_process_data
          (fun _ => .success noTableResponse))
        ["AB"] :=
  C6_nodata_skip (fun _ => .success noTableResponse) noTableResponse
    (fun _ => Fetcher.fetch_and_process_data
      (fun _ => .success noTableResponse))
    "AA" ["AB"] rfl rfl rfl

/-- C7: a `TransportError` outcome for one code is recorded and skipped — the
driver appends nothing for that code and its remaining enumeration is
unchanged — and, as long as no code's fetch raises an uncaught exception, the
per-code loop always runs to completion over the whole enumeration. -/
theorem C7_transport_isolation (fetch : String → Fetcher.FetchResult)
    (code msg : String) (rest codes : List String)
    (hf : fetch code = .transportFail msg)
    (hnc : ∀ c ∈ codes, fetch c ≠ .crash) :
    Fetcher.process_and_save_data fetch (code :: rest) =
      Fetcher.process_and_save_data fetch rest ∧
    (Fetcher.process_and_save_data fetch codes).2 = true := by
  refine ⟨?_, Fetcher.psd_completes fetch codes hnc⟩
  rw [Fetcher.psd_cons, hf]

/-- Witness for C7: a fetch that always fails transport, over two codes. -/
theorem C7_transport_isolation_witness :
    Fetcher.process_and_save_data (fun _ => .transportFail "down")
        ["AA", "AB"] =
      Fetcher.process_and_save_data (fun _ => .transportFail "down") ["AB"] ∧
    (Fetcher.process_and_save_data (fun _ => .transportFail "down")
        ["AA", "AB"]).2 = true :=
  C7_transport_isolation (fun _ => .transportFail "down") "AA" "down"
    ["AB"] ["AA", "AB"] rfl (by intro c _ h; cases h)

/-- C9: on the carrier HTML fixture of `test_fetcher.py` (header cells
`Company name`, `Country / Territory`, `2-letter code`; two body rows),
`fetch_and_process_data` returns exactly the two records pairing each header
with the row's cells, in row order. -/
theorem C9_fixture_parse :
    Fetcher.fetch_and_process_data (fun _ => .success carrierFixture) =
      .ok [[("Company name", "BONZA AVIATION PTY LTD"),
        ("Country / Territory", "Australia"), ("2-letter code", "AB")],
        [("Company name", "West Atlantic Sweden AB"),
          ("Country / Territory", "Sweden"), ("2-letter code", "T2")]] := rfl

namespace Polars

theorem unique_cols (d : DataFrame) : (unique d).cols = d.cols := rfl

theorem unique_rows (d : DataFrame) : (unique d).rows = d.rows.dedup := rfl

theorem read_ndjson_cols (recs : List Rec) :
    (read_ndjson recs).cols = collectCols recs := rfl

theorem read_ndjson_rows (recs : List Rec) :
    (read_ndjson recs).rows = recs.map (projRow (collectCols recs)) := rfl

theorem rename_ok {m : List (String × String)} {d dfr : DataFrame}
    (h : rename m d = .ok dfr) :
    dfr = ⟨d.cols.map (renameCol m), d.rows⟩ := by
  unfold rename at h
  split at h
  · exact (Except.ok.inj h).symm
  · cases h

theorem pipeline_ok_spec {m : List (String × String)} {ks : List String}
    {recs : List Rec} {df : DataFrame}
    (h : pipeline m ks recs = .ok df) :
    df.cols = (collectCols recs).map (renameCol m) ∧
    df.rows.Perm ((recs.map (projRow (collectCols recs))).dedup) ∧
    sortedBy df ks := by
  unfold pipeline at h
  cases hr : rename m (unique (read_ndjson recs)) with
  | error e => rw [hr] at h; cases h
  | ok dfr =>
    rw [hr] at h
    have hdf : df = sortBy ks dfr := (Except.ok.inj h).symm
    have hdfr := rename_ok hr
    subst hdf
    subst hdfr
    refine ⟨rfl, ?_, ?_⟩
    · exact List.perm_insertionSort _ _
    · exact List.sorted_insertionSort _ _

theorem pipeline_ok_of_cols {m : List (String × String)} {ks : List String}
    {recs : List Rec}
    (h : m.all (fun kv => (collectCols recs).contains kv.1) = true) :
    pipeline m ks recs =
      .ok (sortBy ks
        ⟨(collectCols recs).map (renameCol m),
          (recs.map (projRow (collectCols recs))).dedup⟩) := by
  unfold pipeline rename
  simp only [unique_cols, unique_rows, read_ndjson_cols, read_ndjson_rows, h,
    if_true]

theorem count_two_insts (a : List Cell) (l : List (List Cell)) :
    l.count a = @List.count (List Cell) instBEqOfDecidableEq a l := by
  show l.countP (fun x => x == a) = l.countP (fun x => decide (x = a))
  refine List.countP_congr ?_
  intro x _
  simp

theorem pipeline_count_dup {m : List (String × String)} {ks : List String}
    (xs ys zs : List Rec) (r : Rec) (df : DataFrame)
    (h : pipeline m ks (xs ++ r :: ys ++ r :: zs) = .ok df) :
    df.rows.count
      (projRow (collectCols (xs ++ r :: ys ++ r :: zs)) r) = 1 := by
  obtain ⟨-, hperm, -⟩ := pipeline_ok_spec h
  rw [count_two_insts]
  have hmem : projRow (collectCols (xs ++ r :: ys ++ r :: zs)) r ∈
      (xs ++ r :: ys ++ r :: zs).map
        (projRow (collectCols (xs ++ r :: ys ++ r :: zs))) :=
    List.mem_map_of_mem _ (by simp)
  rw [hperm.count_eq]
  exact List.count_eq_one_of_mem (List.nodup_dedup _) (List.mem_dedup.mpr hmem)

end Polars

/-- C3 (corrected): `process.py` sorts ascending by the full three-field
canonical key tuple, so ties on `iata` are broken by the remaining two
fields; the standalone variants `process_airport.py` and `process_carrier.py`
sort by only the first two fields of that tuple (`iata, city_name` and
`iata, country_or_territory`), so the third field does not participate
there. -/
theorem C3_sort_amended :
    (∀ recs df, Process.process_airport_data recs = .ok df →
      Polars.sortedBy df ["iata", "city_name", "airport_name"]) ∧
    (∀ recs df, Process.process_carrier_data recs = .ok df →
      Polars.sortedBy df ["iata", "country_or_territory", "company_name"]) ∧
    (∀ recs df, ProcessAirport.process_airport_data recs = .ok df →
      Polars.sortedBy df ["iata", "city_name"]) ∧
    (∀ recs df, ProcessCarrier.process_airport_data recs = .ok df →
      Polars.sortedBy df ["iata", "country_or_territory"]) :=
  ⟨fun _ _ h => (Polars.pipeline_ok_spec h).2.2,
    fun _ _ h => (Polars.pipeline_ok_spec h).2.2,
    fun _ _ h => (Polars.pipeline_ok_spec h).2.2,
    fun _ _ h => (Polars.pipeline_ok_spec h).2.2⟩

/-- Counterexample to C3 as stated: on two records tied on
`(iata, city_name)` with `airport_name` descending, `process_airport.py`
(cited by the claim) leaves the tie unresolved — its output is not sorted by
the three-field tuple, because its sort names only two fields. -/
theorem C3_sort_counterexample :
    ProcessAirport.process_airport_data tieRecs = .ok tieDf ∧
    ¬Polars.sortedBy tieDf ["iata", "city_name", "airport_name"] :=
  ⟨rfl, by decide⟩

/-- Witness for C3 on a concrete two-record log with iata values `BB`, `AA`:
the `process.py` output is sorted by the full key (with `AA` first). -/
theorem C3_sort_witness :
    Polars.sortedBy
      (Polars.DataFrame.mk ["city_name", "airport_name", "iata"]
        [[some "Y", some "A", some "AA"], [some "X", some "B", some "BB"]])
      ["iata", "city_name", "airport_name"] :=
  C3_sort_amended.1 [airportRecBB, airportRecAA]
    (Polars.DataFrame.mk ["city_name", "airport_name", "iata"]
      [[some "Y", some "A", some "AA"], [some "X", some "B", some "BB"]])
    rfl

/-- C8: a RawRecord occurring twice in the CrawlLog with identical key/value
pairs is collapsed by `unique` to a single occurrence: the canonical output
of either `process.py` function contains that record's (renamed) row exactly
once. -/
theorem C8_dedup_once :
    (∀ xs ys zs (r : Polars.Rec) df,
      Process.process_airport_data (xs ++ r :: ys ++ r :: zs) = .ok df →
      df.rows.count
        (Polars.projRow (Polars.collectCols (xs ++ r :: ys ++ r :: zs)) r)
        = 1) ∧
    (∀ xs ys zs (r : Polars.Rec) df,
      Process.process_carrier_data (xs ++ r :: ys ++ r :: zs) = .ok df →
      df.rows.count
        (Polars.projRow (Polars.collectCols (xs ++ r :: ys ++ r :: zs)) r)
        = 1) :=
  ⟨fun xs ys zs r df h => Polars.pipeline_count_dup xs ys zs r df h,
    fun xs ys zs r df h => Polars.pipeline_count_dup xs ys zs r df h⟩

/-- Witness for C8: the Anaa airport record logged twice survives once. -/
theorem C8_dedup_once_witness :
    (Polars.DataFrame.mk ["city_name", "airport_name", "iata"]
        [[some "Anaa", some "Anaa Airport", some "AAA"]]).rows.count
      (Polars.projRow (Polars.collectCols [airportRecAnaa, airportRecAnaa])
        airportRecAnaa) = 1 :=
  C8_dedup_once.1 [] [] [] airportRecAnaa
    (Polars.DataFrame.mk ["city_name", "airport_name", "iata"]
      [[some "Anaa", some "Anaa Airport", some "AAA"]])
    rfl

/-- The rename step of the shared pipeline, for any mapping whose source
columns all occur in the inferred schema: the run succeeds, the mapping is
applied to the whole schema (unknown columns pass through by `renameCol`),
and every surviving row is the untouched projection of one input record. -/
theorem pipeline_rename_spec {m : List (String × String)} {ks : List String}
    {recs : List Polars.Rec}
    (hcols : m.all
      (fun kv => (Polars.collectCols recs).contains kv.1) = true) :
    (∃ df, Polars.pipeline m ks recs = .ok df) ∧
    ∀ df, Polars.pipeline m ks recs = .ok df →
      df.cols = (Polars.collectCols recs).map (Polars.renameCol m) ∧
      ∀ row ∈ df.rows, ∃ rec ∈ recs,
        row = Polars.projRow (Polars.collectCols recs) rec := by
  constructor
  · exact ⟨_, Polars.pipeline_ok_of_cols hcols⟩
  · intro df h
    obtain ⟨hc, hperm, -⟩ := Polars.pipeline_ok_spec h
    refine ⟨hc, ?_⟩
    intro row hrow
    have hmem := List.mem_dedup.mp (hperm.mem_iff.mp hrow)
    obtain ⟨rec, hrec, hre⟩ := List.mem_map.mp hmem
    exact ⟨rec, hrec, hre.symm⟩

/-- Counterexample to C4 as stated, for both kinds: a log whose only record
lacks the mapped source key (`Airport Name` for AIRPORT, `Company name` for
CARRIER) leaves the schema without that column, and the strict polars rename
raises instead of tolerating the missing key. -/
theorem C4_rename_counterexample :
    Process.process_airport_data [shortAirportRec] =
        .error "SchemaFieldNotFoundError" ∧
    Process.process_carrier_data [shortCarrierRec] =
        .error "SchemaFieldNotFoundError" :=
  ⟨rfl, rfl⟩

/-- C4 (corrected), for both kinds: provided every mapped source key occurs
in at least one record of the log, the pipeline does not crash: the
kind-specific rename is applied to the whole schema (mapped columns renamed,
unknown columns passed through unchanged) and every surviving row is the
untouched projection of one input record — a record individually lacking
mapped keys is tolerated, its missing fields becoming nulls. -/
theorem C4_rename_amended :
    (∀ recs : List Polars.Rec,
      Process.airportMapping.all
          (fun kv => (Polars.collectCols recs).contains kv.1) = true →
      (∃ df, Process.process_airport_data recs = .ok df) ∧
      ∀ df, Process.process_airport_data recs = .ok df →
        df.cols = (Polars.collectCols recs).map
            (Polars.renameCol Process.airportMapping) ∧
        ∀ row ∈ df.rows, ∃ rec ∈ recs,
          row = Polars.projRow (Polars.collectCols recs) rec) ∧
    (∀ recs : List Polars.Rec,
      Process.carrierMapping.all
          (fun kv => (Polars.collectCols recs).contains kv.1) = true →
      (∃ df, Process.process_carrier_data recs = .ok df) ∧
      ∀ df, Process.process_carrier_data recs = .ok df →
        df.cols = (Polars.collectCols recs).map
            (Polars.renameCol Process.carrierMapping) ∧
        ∀ row ∈ df.rows, ∃ rec ∈ recs,
          row = Polars.projRow (Polars.collectCols recs) rec) :=
  ⟨fun _ hcols => pipeline_rename_spec hcols,
    fun _ hcols => pipeline_rename_spec hcols⟩

/-- Witness for C4 on two concrete logs, one per kind, each holding one full
record and one short record missing a mapped key. -/
theorem C4_rename_witness :
    ((∃ df, Process.process_airport_data [airportRecAnaa, shortAirportRec] =
        .ok df) ∧
      ∀ df, Process.process_airport_data [airportRecAnaa, shortAirportRec] =
          .ok df →
        df.cols = (Polars.collectCols [airportRecAnaa, shortAirportRec]).map
            (Polars.renameCol Process.airportMapping) ∧
        ∀ row ∈ df.rows, ∃ rec ∈ [airportRecAnaa, shortAirportRec],
          row = Polars.projRow
            (Polars.collectCols [airportRecAnaa, shortAirportRec]) rec) ∧
    ((∃ df, Process.process_carrier_data [carrierRecBonza, shortCarrierRec] =
        .ok df) ∧
      ∀ df, Process.process_carrier_data [carrierRecBonza, shortCarrierRec] =
          .ok df →
        df.cols = (Polars.collectCols [carrierRecBonza, shortCarrierRec]).map
            (Polars.renameCol Process.carrierMapping) ∧
        ∀ row ∈ df.rows, ∃ rec ∈ [carrierRecBonza, shortCarrierRec],
          row = Polars.projRow
            (Polars.collectCols [carrierRecBonza, shortCarrierRec]) rec) :=
  ⟨C4_rename_amended.1 [airportRecAnaa, shortAirportRec] (by decide),
    C4_rename_amended.2 [carrierRecBonza, shortCarrierRec] (by decide)⟩

namespace OsPath

theorem splitLast_eq {c : Char} :
    ∀ {l a b : List Char}, splitLast c l = some (a, b) → l = a ++ c :: b := by
  intro l
  induction l with
  | nil => intro a b h; cases h
  | cons x xs ih =>
    intro a b h
    unfold splitLast at h
    cases hs : splitLast c xs with
    | some p =>
      obtain ⟨a', b'⟩ := p
      rw [hs] at h
      obtain ⟨rfl, rfl⟩ : x :: a' = a ∧ b' = b := by
        constructor <;> cases h <;> rfl
      simp [ih hs]
    | none =>
      rw [hs] at h
      by_cases hx : x = c
      · rw [if_pos hx] at h
        obtain ⟨rfl, rfl⟩ : ([] : List Char) = a ∧ xs = b := by
          constructor <;> cases h <;> rfl
        simp [hx]
      · rw [if_neg hx] at h
        cases h

theorem splitextBase_spec (p dir base : List Char) (hp : p = dir ++ base) :
    (splitextBase p dir base).1 ++ (splitextBase p dir base).2 = p ∧
    ((splitextBase p dir base).2 = [] ∨
      ∃ b, (splitextBase p dir base).2 = '.' :: b) := by
  cases hdot : splitLast '.' base with
  | none => simp [splitextBase, hdot]
  | some ab =>
    obtain ⟨a, b⟩ := ab
    have hbase : base = a ++ '.' :: b := splitLast_eq hdot
    by_cases hany : (a.any fun x => decide (x ≠ '.')) = true
    · simp only [splitextBase, hdot, hany, if_true]
      refine ⟨?_, Or.inr ⟨b, rfl⟩⟩
      simp [hp, hbase]
    · simp only [splitextBase, hdot, hany, if_false]
      simp

theorem splitext_spec (p : List Char) :
    (splitext p).1 ++ (splitext p).2 = p ∧
    ((splitext p).2 = [] ∨ ∃ b, (splitext p).2 = '.' :: b) := by
  unfold splitext
  cases hsep : splitLast '/' p with
  | none => exact splitextBase_spec p [] p rfl
  | some db =>
    obtain ⟨d, base⟩ := db
    have : p = (d ++ ['/']) ++ base := by
      simp [splitLast_eq hsep]
    exact splitextBase_spec p (d ++ ['/']) base this

end OsPath

/-- C10: for every input path, the output path `main` derives (the input's
stem with `_processed.jsonl` appended) differs from the input path itself,
and the run's only write is to that output path — so the input CrawlLog file
is never written by normalization. -/
theorem C10_output_path_distinct (p : List Char) :
    OsPath.outputPath p ≠ p ∧ p ∉ OsPath.mainWrites p := by
  obtain ⟨happ, hext⟩ := OsPath.splitext_spec p
  have hne : OsPath.outputPath p ≠ p := by
    intro heq
    have hsuffix : OsPath.processedSuffix = (OsPath.splitext p).2 :=
      List.append_cancel_left (heq.trans happ.symm)
    cases hext with
    | inl h => rw [h] at hsuffix; cases hsuffix
    | inr h =>
      obtain ⟨b, hb⟩ := h
      rw [hb] at hsuffix
      cases hsuffix
  refine ⟨hne, ?_⟩
  intro hmem
  rcases List.mem_singleton.mp hmem with h
  exact hne h.symm

/-- Witness for C10 at the repository's default carrier log filename. -/
theorem C10_output_path_distinct_witness :
    OsPath.outputPath "carrier_data_full.jsonl".toList ≠
        "carrier_data_full.jsonl".toList ∧
    "carrier_data_full.jsonl".toList ∉
      OsPath.mainWrites "carrier_data_full.jsonl".toList :=
  C10_output_path_distinct "carrier_data_full.jsonl".toList
